import Mathlib

/-!
# Verification of the behavioral-taxonomy accessor layer

Shallow embedding of `src/src/index.ts` of `@affectively/behavioral-taxonomy`.
The four JSON documents imported at the top of that module are data files that
are not part of the source tree, so every accessor below is parameterized by
the dataset it reads (the TypeScript functions close over the module-level
constants).

Modelling conventions:
* JavaScript numbers are modelled as `ℚ` (identifiers and counts, which are
  integral in the data, as `ℤ`/`ℕ` where the code only compares or counts).
* A NaN-producing float computation is modelled with `Option ℚ`, `none`
  standing for NaN; `Math.round` on a finite value is `⌊q + 1/2⌋` (round half
  towards positive infinity, the JS semantics).
* JS dictionaries (`Object.entries` / `Object.values`) are modelled as
  association lists in insertion order, which is the enumeration order JS
  guarantees for non-index string keys.
* `String.prototype.toLowerCase` is modelled by mapping `Char.toLower` over
  the characters (the ASCII case mapping), and `String.prototype.includes`
  by the infix relation on character lists.
-/

namespace BehavioralTaxonomy

/-- `type LoopOrigin` from the source: the five origin literals. -/
inductive LoopOrigin
  | GENETIC
  | BEHAVIORAL
  | NARRATIVE
  | DIGITAL
  | ENVIRONMENTAL
  deriving DecidableEq, Repr

/-- `type LoopModality` from the source. -/
inductive LoopModality
  | VISUAL_STATIC
  | VISUAL_DYNAMIC
  | AUDITORY
  | HAPTIC
  | OLFACTORY
  | META
  | PROXEMIC
  deriving DecidableEq, Repr

/-- `type LoopMutability` from the source. -/
inductive LoopMutability
  | IMMUTABLE
  | STUBBORN
  | FLUID
  | VOLATILE
  deriving DecidableEq, Repr

/-- `type LoopValence` from the source. -/
inductive LoopValence
  | ATTRACTION
  | REPULSION
  | DOMINANCE
  | SUBMISSION
  | TRUST
  | DECEPTION
  | DISRUPTION
  deriving DecidableEq, Repr

/-- The union type `LoopMutability | number` of the `mutability` field. -/
inductive MutabilityValue
  | sym (m : LoopMutability)
  | num (q : ℚ)
  deriving DecidableEq, Repr

/-- `interface BehavioralLoopLogic`: the fields are named `given`, `when`,
`then`, `result` in the source (`then` is a Lean keyword, hence quoted). -/
structure BehavioralLoopLogic where
  given : String
  «when» : String
  «then» : String
  result : String
  deriving DecidableEq, Repr

/-- `interface LoopTaxonomy` from the source. -/
structure LoopTaxonomy where
  origin : LoopOrigin
  modality : LoopModality
  mutability : MutabilityValue
  valences : List LoopValence
  deriving DecidableEq, Repr

/-- `interface LoopOperator` from the source. -/
structure LoopOperator where
  name : String
  mechanism : String
  deriving DecidableEq, Repr

/-- `interface LoopVeracity` from the source (four numeric score fields). -/
structure LoopVeracity where
  objectiveGrounding : ℚ
  socialConsensus : ℚ
  recursiveAmplification : ℚ
  frictionIndex : ℚ
  deriving DecidableEq, Repr

/-- `interface LoopIntervention` from the source; the optional string fields
become `Option String`. -/
structure LoopIntervention where
  difficulty : ℚ
  interdict : Option String
  minimize : Option String
  recognize : Option String
  leverage : Option String
  deriving DecidableEq, Repr

/-- `interface LoopMeta` from the source. -/
structure LoopMeta where
  tags : List String
  relatedArchetypes : Option (List String)
  academicFields : Option (List String)
  deriving DecidableEq, Repr

/-- `interface BehavioralLoop` from the source. -/
structure BehavioralLoop where
  id : ℤ
  name : String
  logic : BehavioralLoopLogic
  taxonomy : LoopTaxonomy
  operator : LoopOperator
  veracity : LoopVeracity
  intervention : LoopIntervention
  meta : LoopMeta
  deriving DecidableEq, Repr

/-- `interface BehavioralCategory` from the source. -/
structure BehavioralCategory where
  id : String
  categoryNumber : ℤ
  name : String
  description : String
  loops : List BehavioralLoop
  deriving DecidableEq, Repr

/-- `interface BehavioralLoopsMetadata` from the source. -/
structure BehavioralLoopsMetadata where
  title : String
  version : String
  description : String
  totalCategories : ℤ
  totalLoops : ℤ
  generatedAt : String
  interventionsAdded : ℤ
  updatedAt : String
  deriving DecidableEq, Repr

/-- `interface BehavioralLoopsData` from the source. -/
structure BehavioralLoopsData where
  metadata : BehavioralLoopsMetadata
  categories : List BehavioralCategory
  deriving DecidableEq, Repr

/-- `interface CognitiveBias` from the source. -/
structure CognitiveBias where
  id : String
  name : String
  definition : String
  category : String
  examples : Option (List String)
  relatedBiases : Option (List String)
  deriving DecidableEq, Repr

/-- A value of the `biases.json` dictionary: either a bias record or the
`_metadata` sentinel object, which has no `id` property (per the source
comment in `getBiases`). -/
inductive BiasEntry
  | record (b : CognitiveBias)
  | metadataSentinel
  deriving DecidableEq, Repr

/-- A value of the `traits.json` dictionary. Per the source comment in
`getTraits` ("the key is the ID. We need to inject the ID into the object"),
the stored object omits the `id` field; the remaining fields are those of
`interface PersonalityTrait`. -/
structure TraitSource where
  name : String
  definition : String
  dimension : Option String
  opposingTrait : Option String
  deriving DecidableEq, Repr

/-- `interface PersonalityTrait` from the source. -/
structure PersonalityTrait where
  id : String
  name : String
  definition : String
  dimension : Option String
  opposingTrait : Option String
  deriving DecidableEq, Repr

/-- `String.prototype.toLowerCase` (ASCII case mapping), modelled as a
character-wise map so that it evaluates on concrete strings. -/
def jsToLower (s : String) : String := ⟨s.data.map Char.toLower⟩

/-- `q` occurs as a contiguous run inside `l`: `q` is a prefix of some
suffix of `l`. -/
def listIncludes (q : List Char) : List Char → Bool
  | [] => q.isPrefixOf []
  | c :: rest => q.isPrefixOf (c :: rest) || listIncludes q rest

/-- `s.includes(q)` on JS strings: `q` occurs as a contiguous substring. -/
def strIncludes (s q : String) : Bool := listIncludes q.data s.data

/-- `getBehavioralLoops()`: returns the loop dataset unchanged. -/
def getBehavioralLoops (data : BehavioralLoopsData) : BehavioralLoopsData :=
  data

/-- `getAllLoops()`: `data.categories.flatMap((cat) => cat.loops)`. -/
def getAllLoops (data : BehavioralLoopsData) : List BehavioralLoop :=
  ((getBehavioralLoops data).categories.map fun cat => cat.loops).flatten

/-- `getLoopsByCategory(categoryId)`:
`data.categories.find((c) => c.id === categoryId)?.loops ?? []`. -/
def getLoopsByCategory (data : BehavioralLoopsData) (categoryId : String) :
    List BehavioralLoop :=
  match (getBehavioralLoops data).categories.find? (fun c => c.id == categoryId) with
  | some category => category.loops
  | none => []

/-- `findLoopsByTag(tag)`: keeps the loops one of whose tags contains the
query, both sides lower-cased. -/
def findLoopsByTag (data : BehavioralLoopsData) (tag : String) :
    List BehavioralLoop :=
  (getAllLoops data).filter fun loop =>
    loop.meta.tags.any fun t => strIncludes (jsToLower t) (jsToLower tag)

/-- `findLoopsByOrigin(origin)`. -/
def findLoopsByOrigin (data : BehavioralLoopsData) (origin : LoopOrigin) :
    List BehavioralLoop :=
  (getAllLoops data).filter fun loop => loop.taxonomy.origin == origin

/-- `getLoopById(id)`: `getAllLoops().find((loop) => loop.id === id)`. -/
def getLoopById (data : BehavioralLoopsData) (id : ℤ) : Option BehavioralLoop :=
  (getAllLoops data).find? fun loop => loop.id == id

/-- `searchLoops(query)`: case-insensitive substring match against the name
and the `given`/`result` narrative fields. -/
def searchLoops (data : BehavioralLoopsData) (query : String) :
    List BehavioralLoop :=
  let lowerQuery := jsToLower query
  (getAllLoops data).filter fun loop =>
    strIncludes (jsToLower loop.name) lowerQuery ||
    strIncludes (jsToLower loop.logic.given) lowerQuery ||
    strIncludes (jsToLower loop.logic.result) lowerQuery

/-- JS truthiness of `item.id` for a biases-dictionary value: the sentinel has
no `id` property (`undefined`, falsy); for a record the string is truthy iff
it is nonempty. -/
def hasTruthyId : BiasEntry → Bool
  | .record b => b.id != ""
  | .metadataSentinel => false

/-- The predicate `(item) => item.id` of `getBiases`, fused with the cast to
`CognitiveBias[]`: an entry survives iff its `id` is truthy, and the
surviving entries are exactly bias records. -/
def truthyBias : BiasEntry → Option CognitiveBias
  | .record b => if b.id != "" then some b else none
  | .metadataSentinel => none

/-- `getBiases()`: `Object.values(biasesData).filter((item) => item.id)`. -/
def getBiases (biasesData : List (String × BiasEntry)) : List CognitiveBias :=
  (biasesData.map Prod.snd).filterMap truthyBias

/-- `getTraits()`:
`Object.entries(traitsData).map(([id, trait]) => ({ id, ...trait }))`. -/
def getTraits (traitsData : List (String × TraitSource)) :
    List PersonalityTrait :=
  traitsData.map fun kv =>
    { id := kv.1
      name := kv.2.name
      definition := kv.2.definition
      dimension := kv.2.dimension
      opposingTrait := kv.2.opposingTrait }

/-- `Math.round` on a finite JS number: round half towards positive
infinity. -/
def jsRound (q : ℚ) : ℤ := ⌊q + 1 / 2⌋

/-- Float division producing `Option ℚ` (`none` = NaN). In `getStatistics`
the dividend is the sum over an empty list (hence `0`) whenever the divisor
is `0`, and `0 / 0` is NaN. -/
def jsDiv (a b : ℚ) : Option ℚ := if b = 0 then none else some (a / b)

/-- One step of the `reduce` in `getStatistics`:
`acc[origin] = (acc[origin] || 0) + 1` on a record that starts empty (a
missing key reads as `0`). -/
def originTally (acc : LoopOrigin → ℕ) (o : LoopOrigin) : LoopOrigin → ℕ :=
  fun x => if x = o then acc x + 1 else acc x

/-- The anonymous return type of `getStatistics`. -/
structure Statistics where
  totalLoops : ℤ
  totalCategories : ℤ
  loopsByOrigin : LoopOrigin → ℕ
  averageInterventionDifficulty : Option ℚ

/-- `getStatistics()`: totals copied from the metadata fields, per-origin
counts via `reduce` over the flattened list, and
`Math.round(avgDifficulty * 10) / 10` where
`avgDifficulty = allLoops.reduce((sum, loop) => sum + loop.intervention.difficulty, 0) / allLoops.length`
(NaN — an empty flattened list — propagates through `Option.map`). The
source's local constants `data` and `allLoops` are inlined here. -/
def getStatistics (data : BehavioralLoopsData) : Statistics :=
  { totalLoops := (getBehavioralLoops data).metadata.totalLoops
    totalCategories := (getBehavioralLoops data).metadata.totalCategories
    loopsByOrigin :=
      (getAllLoops data).foldl
        (fun acc loop => originTally acc loop.taxonomy.origin) fun _ => 0
    averageInterventionDifficulty :=
      (jsDiv
          ((getAllLoops data).foldl
            (fun sum loop => sum + loop.intervention.difficulty) 0)
          ((getAllLoops data).length : ℚ)).map
        fun avg => ((jsRound (avg * 10) : ℚ) / 10) }

/-! ## Concrete datasets used to instantiate the theorems -/

/-- Builds a loop record with the fields the theorems inspect and fixed
filler for the rest. -/
def mkLoop (i : ℤ) (nm : String) (o : LoopOrigin) (d : ℚ) (tags : List String) :
    BehavioralLoop :=
  { id := i
    name := nm
    logic := { given := "g", «when» := "w", «then» := "t", result := "r" }
    taxonomy :=
      { origin := o
        modality := .AUDITORY
        mutability := .sym .FLUID
        valences := [.TRUST] }
    operator := { name := "op", mechanism := "mech" }
    veracity :=
      { objectiveGrounding := 1
        socialConsensus := 1
        recursiveAmplification := 0
        frictionIndex := 0 }
    intervention :=
      { difficulty := d
        interdict := none
        minimize := none
        recognize := none
        leverage := none }
    meta := { tags := tags, relatedArchetypes := none, academicFields := none } }

def loopA : BehavioralLoop := mkLoop 1 "Bonding" .GENETIC 3 ["trust", "bond"]

def loopB : BehavioralLoop := mkLoop 2 "Doomscroll" .DIGITAL 7 ["doom"]

def loopC : BehavioralLoop := mkLoop 3 "Signal" .DIGITAL 5 ["trust-signal"]

def sampleMeta : BehavioralLoopsMetadata :=
  { title := "t"
    version := "v"
    description := "d"
    totalCategories := 2
    totalLoops := 3
    generatedAt := "g"
    interventionsAdded := 0
    updatedAt := "u" }

/-- A dataset with two categories and three loops; its metadata counts agree
with the data. -/
def sampleData : BehavioralLoopsData :=
  { metadata := sampleMeta
    categories :=
      [ { id := "social"
          categoryNumber := 1
          name := "Social"
          description := "s"
          loops := [loopA, loopB] },
        { id := "digital"
          categoryNumber := 2
          name := "Digital"
          description := "d"
          loops := [loopC] } ] }

/-- A dataset whose declared metadata counts disagree with the loaded data:
it holds one category and one loop but declares `100` loops and `50`
categories. -/
def skewedData : BehavioralLoopsData :=
  { metadata := { sampleMeta with totalCategories := 50, totalLoops := 100 }
    categories :=
      [ { id := "only"
          categoryNumber := 1
          name := "Only"
          description := "o"
          loops := [loopA] } ] }

/-- A dataset whose flattened loop list is empty. -/
def emptyData : BehavioralLoopsData :=
  { metadata := sampleMeta, categories := [] }

/-- Builds a bias record with a given id and fixed filler fields. -/
def mkBias (i : String) : CognitiveBias :=
  { id := i
    name := "n"
    definition := "d"
    category := "c"
    examples := none
    relatedBiases := none }

/-- A biases dictionary with one `_metadata` sentinel and two records. -/
def sampleBiases : List (String × BiasEntry) :=
  [("_metadata", .metadataSentinel),
   ("anchoring", .record (mkBias "anchoring")),
   ("halo", .record (mkBias "halo"))]

/-! ## Definitions used to state the claims -/

/-- Projects a biases-dictionary value to its bias record, if it is one. -/
def biasValue : BiasEntry → Option CognitiveBias
  | .record b => some b
  | .metadataSentinel => none

/-- Recognizes the `_metadata` sentinel values of the biases dictionary. -/
def isMetadataSentinel : BiasEntry → Bool
  | .record _ => false
  | .metadataSentinel => true

/-- The total of a per-origin count function over the five origins. -/
def sumByOrigin (f : LoopOrigin → ℕ) : ℕ :=
  f .GENETIC + f .BEHAVIORAL + f .NARRATIVE + f .DIGITAL + f .ENVIRONMENTAL

/-! ## Helper lemmas -/

/-- `find?` with an equality-on-a-key predicate returns the sought element
itself when that element is present and the keys are pairwise distinct. -/
theorem find?_key_eq_of_mem {α : Type} {κ : Type} [DecidableEq κ] (key : α → κ) :
    ∀ {l : List α} {x : α}, x ∈ l → (l.Pairwise fun a b => key a ≠ key b) →
      l.find? (fun y => key y == key x) = some x := by
  intro l
  induction l with
  | nil => intro x h _; cases h
  | cons a t ih =>
    intro x hmem hpw
    rcases List.pairwise_cons.mp hpw with ⟨ha, ht⟩
    rcases List.mem_cons.mp hmem with rfl | hx
    · exact List.find?_cons_of_pos _ (by simp)
    · have hne : key a ≠ key x := ha x hx
      rw [List.find?_cons_of_neg _ (by simp [hne])]
      exact ih hx ht

/-- A left fold that keeps adding `f` of each element equals the starting
value plus the sum of the mapped list. -/
theorem foldl_add_map {α : Type} (f : α → ℚ) :
    ∀ (l : List α) (c : ℚ), l.foldl (fun s x => s + f x) c = c + (l.map f).sum := by
  intro l
  induction l with
  | nil => simp
  | cons a t ih =>
    intro c
    simp only [List.foldl_cons, List.map_cons, List.sum_cons, ih]
    ring

theorem sumByOrigin_originTally (acc : LoopOrigin → ℕ) (o : LoopOrigin) :
    sumByOrigin (originTally acc o) = sumByOrigin acc + 1 := by
  cases o <;> simp [sumByOrigin, originTally] <;> omega

theorem sumByOrigin_foldl (l : List BehavioralLoop) :
    ∀ acc : LoopOrigin → ℕ,
      sumByOrigin (l.foldl (fun acc loop => originTally acc loop.taxonomy.origin) acc) =
        sumByOrigin acc + l.length := by
  induction l with
  | nil => intro acc; simp
  | cons a t ih =>
    intro acc
    simp only [List.foldl_cons, List.length_cons, ih, sumByOrigin_originTally]
    omega

/-- The `averageInterventionDifficulty` field of `getStatistics`, with the
fold written as the sum of the mapped difficulties. -/
theorem getStatistics_avg (data : BehavioralLoopsData) :
    (getStatistics data).averageInterventionDifficulty =
      (jsDiv ((getAllLoops data).map fun loop => loop.intervention.difficulty).sum
          ((getAllLoops data).length : ℚ)).map
        fun avg => ((jsRound (avg * 10) : ℚ) / 10) := by
  show (jsDiv
      ((getAllLoops data).foldl (fun sum loop => sum + loop.intervention.difficulty) 0)
      ((getAllLoops data).length : ℚ)).map
        (fun avg => ((jsRound (avg * 10) : ℚ) / 10)) = _
  rw [foldl_add_map (fun loop => loop.intervention.difficulty) (getAllLoops data) 0,
    zero_add]

/-- The truthiness filter of `getBiases` keeps exactly the record entries,
provided every record entry carries a nonempty id. -/
theorem filterMap_truthy_eq (vals : List BiasEntry)
    (h : ∀ e ∈ vals, hasTruthyId e = !(isMetadataSentinel e)) :
    vals.filterMap truthyBias = vals.filterMap biasValue := by
  induction vals with
  | nil => rfl
  | cons e t ih =>
    have ht : ∀ e2 ∈ t, hasTruthyId e2 = !(isMetadataSentinel e2) :=
      fun e2 h2 => h e2 (List.mem_cons_of_mem _ h2)
    cases e with
    | record b =>
      have hbne : (b.id != "") = true := by
        simpa [hasTruthyId, isMetadataSentinel] using h (.record b) (List.mem_cons_self _ _)
      simp [List.filterMap_cons, truthyBias, biasValue, hbne, ih ht]
    | metadataSentinel =>
      simp [List.filterMap_cons, truthyBias, biasValue, ih ht]

/-- Keeping exactly the record entries yields one output per entry that is
not a sentinel. -/
theorem length_filterMap_biasValue (vals : List BiasEntry) :
    (vals.filterMap biasValue).length = vals.length - vals.countP isMetadataSentinel := by
  induction vals with
  | nil => rfl
  | cons e t ih =>
    have hle : t.countP isMetadataSentinel ≤ t.length := List.countP_le_length _
    cases e with
    | record b =>
      simp [List.filterMap_cons, biasValue, List.countP_cons, isMetadataSentinel, ih]
      omega
    | metadataSentinel =>
      simp [List.filterMap_cons, biasValue, List.countP_cons, isMetadataSentinel, ih]

/-! ## Claims -/

/-- C1: for every loop in the flattened list returned by `getAllLoops`,
calling `getLoopById` with that loop's numeric id returns a loop equal to the
original, under the dataset invariant that loop identifiers are unique within
the flattened set. -/
theorem C1_getLoopById_roundtrip (data : BehavioralLoopsData)
    (loop : BehavioralLoop) (hmem : loop ∈ getAllLoops data)
    (huniq : (getAllLoops data).Pairwise fun a b => a.id ≠ b.id) :
    getLoopById data loop.id = some loop :=
  find?_key_eq_of_mem BehavioralLoop.id hmem huniq

theorem C1_getLoopById_roundtrip_witness :
    loopA ∈ getAllLoops sampleData ∧
    ((getAllLoops sampleData).Pairwise fun a b => a.id ≠ b.id) ∧
    getLoopById sampleData loopA.id = some loopA :=
  ⟨by decide, by decide,
    C1_getLoopById_roundtrip sampleData loopA (by decide) (by decide)⟩

/-- C2: `getStatistics` reports `totalLoops` and `totalCategories` straight
from the dataset's declared metadata fields, never recomputing them; in
particular on `skewedData`, whose metadata declares 100 loops and 50
categories while the loaded data holds 1 and 1, the reported totals are the
declared 100 and 50. -/
theorem C2_totals_from_metadata :
    (∀ data : BehavioralLoopsData,
        (getStatistics data).totalLoops = data.metadata.totalLoops ∧
        (getStatistics data).totalCategories = data.metadata.totalCategories) ∧
    skewedData.metadata.totalLoops ≠ ((getAllLoops skewedData).length : ℤ) ∧
    skewedData.metadata.totalCategories ≠ (skewedData.categories.length : ℤ) ∧
    (getStatistics skewedData).totalLoops = 100 ∧
    (getStatistics skewedData).totalCategories = 50 :=
  ⟨fun _ => ⟨rfl, rfl⟩, by decide, by decide, rfl, rfl⟩

/-- C3: for every entry of the traits dictionary, the corresponding record
returned by `getTraits` has an `id` field equal to that entry's dictionary
key: the list of result ids equals the list of keys, position by position. -/
theorem C3_trait_id_eq_key (traitsData : List (String × TraitSource)) :
    (getTraits traitsData).map (fun t => t.id) = traitsData.map Prod.fst := by
  induction traitsData with
  | nil => rfl
  | cons kv t ih =>
    simp only [getTraits, List.map_cons] at ih ⊢
    rw [ih]

/-- C4: `getAllLoops` is exactly the concatenation of every category's loop
list in category order, and — under the dataset invariant that category
identifiers are distinct — concatenating `getLoopsByCategory` over all
category ids reproduces the flattened list with no duplicates and no
omissions. -/
theorem C4_partition (data : BehavioralLoopsData)
    (huniq : data.categories.Pairwise fun a b => a.id ≠ b.id) :
    getAllLoops data = (data.categories.map fun c => c.loops).flatten ∧
    (data.categories.map fun c => getLoopsByCategory data c.id).flatten =
      getAllLoops data := by
  refine ⟨rfl, ?_⟩
  have hmap : data.categories.map (fun c => getLoopsByCategory data c.id) =
      data.categories.map fun c => c.loops := by
    apply List.map_congr_left
    intro c hc
    unfold getLoopsByCategory getBehavioralLoops
    rw [find?_key_eq_of_mem BehavioralCategory.id hc huniq]
  rw [hmap]
  rfl

theorem C4_partition_witness :
    (sampleData.categories.Pairwise fun a b => a.id ≠ b.id) ∧
    (sampleData.categories.map fun c => getLoopsByCategory sampleData c.id).flatten =
      getAllLoops sampleData :=
  ⟨by decide, (C4_partition sampleData (by decide)).2⟩

/-- C5 (amended): given that the flattened loop list is nonempty and that
every loop's `intervention.difficulty` lies within 1 to 10, the
`averageInterventionDifficulty` field returned by `getStatistics` — the mean
of all flattened loops' difficulties rounded to one decimal place — is a
number lying within the declared 1 to 10 range. -/
theorem C5_avg_difficulty_in_range (data : BehavioralLoopsData)
    (hne : (getAllLoops data).length ≠ 0)
    (hd : ∀ loop ∈ getAllLoops data,
        (1 : ℚ) ≤ loop.intervention.difficulty ∧ loop.intervention.difficulty ≤ 10) :
    ∃ q : ℚ, (getStatistics data).averageInterventionDifficulty = some q ∧
      1 ≤ q ∧ q ≤ 10 := by
  have hn0 : (0 : ℚ) < ((getAllLoops data).length : ℚ) := by
    exact_mod_cast Nat.pos_of_ne_zero hne
  set L := getAllLoops data with hL
  set s := (L.map fun loop => loop.intervention.difficulty).sum with hs
  have h1 : ((L.length : ℚ)) ≤ s := by
    have hb := List.card_nsmul_le_sum
      (L.map fun loop => loop.intervention.difficulty) (1 : ℚ)
      (by
        intro x hx
        rcases List.mem_map.mp hx with ⟨loop, hm, rfl⟩
        exact (hd loop hm).1)
    simpa [nsmul_eq_mul, List.length_map, ← hs] using hb
  have h2 : s ≤ (L.length : ℚ) * 10 := by
    have hb := List.sum_le_card_nsmul
      (L.map fun loop => loop.intervention.difficulty) (10 : ℚ)
      (by
        intro x hx
        rcases List.mem_map.mp hx with ⟨loop, hm, rfl⟩
        exact (hd loop hm).2)
    simpa [nsmul_eq_mul, List.length_map, ← hs] using hb
  have havg1 : (1 : ℚ) ≤ s / (L.length : ℚ) := by
    rw [le_div_iff₀ hn0]
    simpa using h1
  have havg2 : s / (L.length : ℚ) ≤ 10 := by
    rw [div_le_iff₀ hn0]
    linarith
  have hz1 : (10 : ℤ) ≤ jsRound ((s / (L.length : ℚ)) * 10) := by
    simp only [jsRound]
    apply Int.le_floor.mpr
    push_cast
    linarith
  have hz2 : jsRound ((s / (L.length : ℚ)) * 10) ≤ 100 := by
    simp only [jsRound]
    have hmono : (s / (L.length : ℚ)) * 10 + 1 / 2 ≤ (100 : ℚ) + 1 / 2 := by linarith
    calc ⌊(s / (L.length : ℚ)) * 10 + 1 / 2⌋ ≤ ⌊(100 : ℚ) + 1 / 2⌋ :=
          Int.floor_le_floor hmono
      _ = 100 := by norm_num [Int.floor_eq_iff]
  refine ⟨(jsRound ((s / (L.length : ℚ)) * 10) : ℚ) / 10, ?_, ?_, ?_⟩
  · rw [getStatistics_avg data]
    simp only [← hL, ← hs, jsDiv, if_neg (ne_of_gt hn0)]
    rfl
  · rw [le_div_iff₀ (by norm_num : (0 : ℚ) < 10)]
    have hc : ((10 : ℤ) : ℚ) ≤ (jsRound ((s / (L.length : ℚ)) * 10) : ℚ) := by
      exact_mod_cast hz1
    push_cast at hc ⊢
    linarith
  · rw [div_le_iff₀ (by norm_num : (0 : ℚ) < 10)]
    have hc : ((jsRound ((s / (L.length : ℚ)) * 10) : ℚ)) ≤ ((100 : ℤ) : ℚ) := by
      exact_mod_cast hz2
    push_cast at hc ⊢
    linarith

theorem C5_avg_difficulty_in_range_witness :
    (getAllLoops sampleData).length ≠ 0 ∧
    ∃ q : ℚ, (getStatistics sampleData).averageInterventionDifficulty = some q ∧
      1 ≤ q ∧ q ≤ 10 :=
  ⟨by decide, C5_avg_difficulty_in_range sampleData (by decide) (by decide)⟩

/-- C5 counterexample: on the dataset with an empty flattened loop list, the
range hypothesis of the claim holds vacuously, yet the
`averageInterventionDifficulty` field is NaN (modelled `none`), so it does
not lie within 1 to 10. -/
theorem C5_range_counterexample :
    (∀ loop ∈ getAllLoops emptyData,
        (1 : ℚ) ≤ loop.intervention.difficulty ∧ loop.intervention.difficulty ≤ 10) ∧
    (getStatistics emptyData).averageInterventionDifficulty = none ∧
    ¬ ∃ q : ℚ, (getStatistics emptyData).averageInterventionDifficulty = some q ∧
        1 ≤ q ∧ q ≤ 10 := by
  refine ⟨?_, ?_, ?_⟩
  · intro loop h
    simp [getAllLoops, getBehavioralLoops, emptyData] at h
  · rfl
  · rintro ⟨q, hq, -⟩
    have hnone : (getStatistics emptyData).averageInterventionDifficulty = none := rfl
    rw [hnone] at hq
    cases hq

/-- C6: under the invariant that every record entry of the biases dictionary
carries a truthy (nonempty) id, `getBiases` returns exactly the record
entries in order — every non-sentinel entry appears, every `_metadata`
sentinel entry is excluded — so its count equals the number of dictionary
entries minus exactly the sentinel entries. -/
theorem C6_getBiases_excludes_sentinels (biasesData : List (String × BiasEntry))
    (hid : ∀ e ∈ biasesData.map Prod.snd, hasTruthyId e = !(isMetadataSentinel e)) :
    getBiases biasesData = (biasesData.map Prod.snd).filterMap biasValue ∧
    (getBiases biasesData).length =
      biasesData.length - (biasesData.map Prod.snd).countP isMetadataSentinel := by
  have heq : getBiases biasesData = (biasesData.map Prod.snd).filterMap biasValue :=
    filterMap_truthy_eq (biasesData.map Prod.snd) hid
  refine ⟨heq, ?_⟩
  rw [heq, length_filterMap_biasValue]
  simp [List.length_map]

theorem C6_getBiases_excludes_sentinels_witness :
    getBiases sampleBiases = [mkBias "anchoring", mkBias "halo"] ∧
    (getBiases sampleBiases).length =
      sampleBiases.length - (sampleBiases.map Prod.snd).countP isMetadataSentinel ∧
    (getBiases sampleBiases).length = 2 :=
  ⟨by decide, (C6_getBiases_excludes_sentinels sampleBiases (by decide)).2, by decide⟩

/-- C7: queries that differ only in letter case (equal after lower-casing)
produce identical results from both `findLoopsByTag` and `searchLoops`. -/
theorem C7_search_case_insensitive (data : BehavioralLoopsData) (q1 q2 : String)
    (h : jsToLower q1 = jsToLower q2) :
    findLoopsByTag data q1 = findLoopsByTag data q2 ∧
    searchLoops data q1 = searchLoops data q2 := by
  unfold findLoopsByTag searchLoops
  rw [h]
  exact ⟨rfl, rfl⟩

theorem C7_search_case_insensitive_witness :
    findLoopsByTag sampleData "TRUST" = findLoopsByTag sampleData "trust" ∧
    searchLoops sampleData "TRUST" = searchLoops sampleData "trust" :=
  C7_search_case_insensitive sampleData "TRUST" "trust" (by decide)

/-- C8: a category id that matches no category yields the empty list from
`getLoopsByCategory`, and a numeric id that matches no loop yields `none`
from `getLoopById`; both functions are total, so neither raises. -/
theorem C8_missing_lookups (data : BehavioralLoopsData) (categoryId : String)
    (i : ℤ) (hc : ∀ c ∈ data.categories, c.id ≠ categoryId)
    (hl : ∀ loop ∈ getAllLoops data, loop.id ≠ i) :
    getLoopsByCategory data categoryId = [] ∧ getLoopById data i = none := by
  constructor
  · have hfind : (data.categories.find? fun c => c.id == categoryId) = none :=
      List.find?_eq_none.mpr (by
        intro c hcm
        simp [hc c hcm])
    unfold getLoopsByCategory getBehavioralLoops
    rw [hfind]
  · exact List.find?_eq_none.mpr (by
      intro loop hm
      simp [hl loop hm])

theorem C8_missing_lookups_witness :
    getLoopsByCategory sampleData "nope" = [] ∧
    getLoopById sampleData 999 = none :=
  C8_missing_lookups sampleData "nope" 999 (by decide) (by decide)

/-- C9: for every dataset, the per-origin counts in the `loopsByOrigin`
record of `getStatistics` sum to the length of the flattened list returned
by `getAllLoops`. -/
theorem C9_origin_counts_sum (data : BehavioralLoopsData) :
    sumByOrigin (getStatistics data).loopsByOrigin = (getAllLoops data).length := by
  show sumByOrigin
      ((getAllLoops data).foldl
        (fun acc loop => originTally acc loop.taxonomy.origin) fun _ => 0) =
    (getAllLoops data).length
  rw [sumByOrigin_foldl]
  simp [sumByOrigin]

/-- C10: the mean inside `getStatistics` divides by the flattened list's
length with no guard: whenever at least one loop exists the
`averageInterventionDifficulty` field is a defined number, and on an empty
flattened list it is NaN (modelled `none`) rather than a number. -/
theorem C10_avg_defined_iff_nonempty (data : BehavioralLoopsData) :
    ((getAllLoops data).length ≠ 0 →
      ∃ q : ℚ, (getStatistics data).averageInterventionDifficulty = some q) ∧
    ((getAllLoops data).length = 0 →
      (getStatistics data).averageInterventionDifficulty = none) := by
  constructor
  · intro h
    simp only [getStatistics_avg data, jsDiv,
      if_neg (by exact_mod_cast h : ¬((getAllLoops data).length : ℚ) = 0),
      Option.map_some]
    exact ⟨_, rfl⟩
  · intro h
    rw [getStatistics_avg data]
    simp only [jsDiv, if_pos (by exact_mod_cast h : ((getAllLoops data).length : ℚ) = 0)]
    rfl

theorem C10_avg_defined_iff_nonempty_witness :
    (∃ q : ℚ, (getStatistics sampleData).averageInterventionDifficulty = some q) ∧
    (getStatistics emptyData).averageInterventionDifficulty = none :=
  ⟨(C10_avg_defined_iff_nonempty sampleData).1 (by decide),
    (C10_avg_defined_iff_nonempty emptyData).2 (by decide)⟩

end BehavioralTaxonomy
